import Mathlib

/-!
Verification of the log-ingestor service (`src/main.rs`).

The program is a single Rust file: an HTTP handler (`ingest_handler`)
receives a JSON array of `LogEntry` values, keeps only entries whose
`level` is exactly `"error"`, injects the current UTC time (rendered by
`chrono::Utc::now().to_rfc3339()`) under the `"timestamp"` key of the
entry's `extra` object when that key is absent, and sends the entry into
a bounded `tokio::sync::mpsc` channel of capacity 10000.  A background
`writer_task` drains the channel in FIFO order and inserts one row per
record into SQLite, discarding the result of each insert.

The embedding below models JSON values as an inductive type, the
channel as a list consumed in order (tokio's mpsc channel is FIFO), the
clock as an explicit `now : String` parameter, and the fallibility of
`tx.send` / `INSERT` as boolean oracles indexed by operation count.
-/

set_option autoImplicit false

namespace LogIngestor

/-- A JSON value, modelling `serde_json::Value`.  Numbers are modelled as
integers: no claim inspects numeric contents, only whether a value is a
string.  Objects are association lists; serde_json's map is keyed
uniquely, and none of the verified properties depend on key order. -/
inductive Json where
  | null : Json
  | boolean : Bool → Json
  | num : Int → Json
  | str : String → Json
  | arr : List Json → Json
  | obj : List (String × Json) → Json

/-- First-match association-list lookup, modelling `serde_json::Map` key
lookup (keys in a `serde_json::Map` are unique, so first match is the
match). -/
def lookupField : List (String × Json) → String → Option Json
  | [], _ => none
  | (k, v) :: rest, key => if k = key then some v else lookupField rest key

/-- `serde_json::Value::get(key)`: field lookup on objects, `None` on
every other variant. -/
def Json.get : Json → String → Option Json
  | Json.obj fields, key => lookupField fields key
  | _, _ => none

/-- `serde_json::Value::as_str`: `Some` exactly on strings. -/
def Json.asStr : Json → Option String
  | Json.str s => some s
  | _ => none

/-- Whether the value is a JSON object (`serde_json::Value::is_object`). -/
def Json.isObj : Json → Bool
  | Json.obj _ => true
  | _ => false

/-- `LogEntry` from `main.rs`: `level` and `message` are required strings;
`#[serde(flatten)] extra: serde_json::Value` captures every other field
of the incoming JSON object. -/
structure LogEntry where
  level : String
  message : String
  extra : Json

/-- The timestamp-enrichment step of `ingest_handler` (lines 134-139):
when `extra` is an object lacking the `"timestamp"` key, insert the
current UTC time (the `now` parameter, `chrono::Utc::now().to_rfc3339()`
in the source) as a JSON string under that key; otherwise leave the
entry untouched. -/
def enrich (now : String) (log : LogEntry) : LogEntry :=
  match log.extra with
  | Json.obj fields =>
      if (lookupField fields "timestamp").isSome then log
      else { log with extra := Json.obj (fields ++ [("timestamp", Json.str now)]) }
  | _ => log

/-- The per-entry body of the `for` loop in `ingest_handler` (lines
130-148): entries whose `level` is exactly `"error"` are enriched and
handed to the channel (`some`); every other entry is dropped (`none`). -/
def processEntry (now : String) (log : LogEntry) : Option LogEntry :=
  if log.level = "error" then some (enrich now log) else none

/-- The result of one invocation of `ingest_handler`: the HTTP status it
returns and the records that actually entered the channel. -/
structure IngestResult where
  enqueued : List LogEntry
  status : Nat

/-- Effect of the `let _ = state.tx.send(log).await` calls: `sendOk i`
tells whether the `i`-th send of the request succeeded (`tx.send` fails
only when the channel is closed during shutdown; the failed record is
dropped and the error is discarded by `let _ =`). -/
def deliverSends (sendOk : Nat → Bool) : Nat → List LogEntry → List LogEntry
  | _, [] => []
  | i, log :: rest =>
      if sendOk i then log :: deliverSends sendOk (i + 1) rest
      else deliverSends sendOk (i + 1) rest

/-- `ingest_handler` (lines 124-152): filter the batch to `"error"`
entries, enrich each, send each into the channel (send errors swallowed),
and unconditionally answer `202 Accepted`. -/
def ingest_handler (now : String) (sendOk : Nat → Bool)
    (payload : List LogEntry) : IngestResult :=
  { enqueued := deliverSends sendOk 0 (payload.filterMap (processEntry now)),
    status := 202 }

/-- A row of the `logs` table as the writer inserts it (the
auto-increment `id` column is assigned by SQLite and not modelled).
`details` holds the JSON value serialized into the TEXT column by
`serde_json::to_string(&log.extra)`; serialization of a
`serde_json::Value` is total and losslessly invertible, so the column is
modelled by the value itself. -/
structure StoredRow where
  level : String
  message : String
  timestamp : String
  details : Json

/-- Line 77 of `main.rs`:
`log.extra.get("timestamp").and_then(|v| v.as_str()).unwrap_or("")`. -/
def recordTimestamp (log : LogEntry) : String :=
  match (log.extra.get "timestamp").bind Json.asStr with
  | some s => s
  | none => ""

/-- The row bound by the parameterized INSERT of `writer_task`
(lines 83-87). -/
def toStoredRow (log : LogEntry) : StoredRow :=
  { level := log.level
    message := log.message
    timestamp := recordTimestamp log
    details := log.extra }

/-- Observable trace of one run of `writer_task`: the INSERT statements
executed (in execution order), the rows whose INSERT succeeded (the
table contents it produced, in insertion order), and the messages passed
to the `debug!` call on line 74 — the only tracing statement in the
worker loop. -/
structure WriterTrace where
  attempts : List StoredRow
  stored : List StoredRow
  debugLogs : List String

/-- The `while let Some(log) = rx.recv().await` loop of `writer_task`
(lines 71-92), consuming the FIFO channel contents `queue`.  `insertOk i`
tells whether the `i`-th INSERT succeeded; its result is discarded by
`let _ =`, so the loop body is the same on success and on failure. -/
def writer_go (insertOk : Nat → Bool) : Nat → List LogEntry → WriterTrace
  | _, [] => ⟨[], [], []⟩
  | i, log :: rest =>
      let row := toStoredRow log
      let t := writer_go insertOk (i + 1) rest
      { attempts := row :: t.attempts
        stored := if insertOk i then row :: t.stored else t.stored
        debugLogs := log.message :: t.debugLogs }

/-- `writer_task`, started on the queue contents with insert counter 0. -/
def writer_task (insertOk : Nat → Bool) (queue : List LogEntry) : WriterTrace :=
  writer_go insertOk 0 queue

/-- Deserialization of one `LogEntry` from the fields of a JSON object,
per `#[derive(Deserialize)]` with `#[serde(flatten)] extra`: `level` and
`message` must be present as JSON strings, and every remaining field is
collected into `extra` as an object. -/
def parseLogEntry (fields : List (String × Json)) : Option LogEntry :=
  match lookupField fields "level", lookupField fields "message" with
  | some (Json.str l), some (Json.str m) =>
      some { level := l
             message := m
             extra := Json.obj (fields.filter fun kv =>
               !(kv.1 == "level") && !(kv.1 == "message")) }
  | _, _ => none

/-- Deserialization of a list of JSON values into log entries; every
element must be an object parseable as a `LogEntry`. -/
def parseEntries : List Json → Option (List LogEntry)
  | [] => some []
  | Json.obj fields :: rest =>
      match parseLogEntry fields, parseEntries rest with
      | some e, some es => some (e :: es)
      | _, _ => none
  | _ :: _ => none

/-- Deserialization of the request body into `Vec<LogEntry>`, per the
`Json(payload): Json<Vec<LogEntry>>` extractor argument: the body must
be a JSON array of log-entry objects. -/
def parseBody : Json → Option (List LogEntry)
  | Json.arr xs => parseEntries xs
  | _ => none

/-- The client-error status axum's `Json` extractor answers when the
body fails to deserialize as `Vec<LogEntry>` (422 Unprocessable Entity
for deserialization errors; syntax errors yield 400 — both 4xx). -/
def rejectionStatus : Nat := 422

/-- The `/ingest` endpoint as routed: axum's `Json` extractor runs
before `ingest_handler`; when the body does not deserialize the handler
is never invoked (nothing is sent to the channel) and a 4xx rejection is
returned, otherwise `ingest_handler` runs on the parsed batch. -/
def ingestEndpoint (now : String) (sendOk : Nat → Bool)
    (body : Json) : IngestResult :=
  match parseBody body with
  | none => { enqueued := [], status := rejectionStatus }
  | some payload => ingest_handler now sendOk payload

/-- `axum::http::StatusCode` as a response (`-> StatusCode` on
`ingest_handler`): the rendered response body is empty for every bare
status code. -/
def statusResponseBody (_status : Nat) : String :=
  ""

/-- Channel capacity from `mpsc::channel::<LogEntry>(10000)` (line 42). -/
def channelCapacity : Nat := 10000

/-- State of the bounded mpsc channel: the buffered records in FIFO
order and whether the receiving end has been dropped. -/
structure ChannelState where
  buffer : List LogEntry
  closed : Bool

/-- Outcome of one attempt of `tx.send(record).await` against a channel
state.  `delivered` carries the new state; `pending` means the channel
is full and the send suspends, still holding the record, until a slot
frees (backpressure); `closedDrop` means the channel is closed and the
record is dropped with an error the handler swallows. -/
inductive SendOutcome where
  | delivered : ChannelState → SendOutcome
  | pending : SendOutcome
  | closedDrop : SendOutcome

/-- One step of `tokio::sync::mpsc::Sender::send` on a channel of
capacity `cap`: fail if closed, append if a slot is free, otherwise
suspend the caller.  The `await` in the source repeats this step until
the outcome is not `pending`. -/
def trySend (cap : Nat) (s : ChannelState) (record : LogEntry) : SendOutcome :=
  if s.closed then SendOutcome.closedDrop
  else if s.buffer.length < cap then
    SendOutcome.delivered { buffer := s.buffer ++ [record], closed := false }
  else SendOutcome.pending

/-- Sample accepted entry used by concrete witnesses. -/
def sampleA : LogEntry := ⟨"error", "a", Json.obj [("timestamp", Json.str "t1")]⟩

/-- Second sample accepted entry used by concrete witnesses. -/
def sampleB : LogEntry := ⟨"error", "b", Json.obj [("timestamp", Json.str "t2")]⟩

/-- Third sample accepted entry used by concrete witnesses. -/
def sampleC : LogEntry := ⟨"error", "c", Json.obj [("timestamp", Json.str "t3")]⟩

/-! Helper lemmas about the embedded operations. -/

theorem Json.get_of_not_obj {j : Json} (h : j.isObj = false) (k : String) :
    j.get k = none := by
  cases j <;> first | rfl | simp [Json.isObj] at h

theorem enrich_level (now : String) (log : LogEntry) :
    (enrich now log).level = log.level := by
  obtain ⟨l, m, extra⟩ := log
  cases extra <;> first | rfl | (dsimp only [enrich]; split <;> rfl)

theorem processEntry_eq_some {now : String} {a x : LogEntry}
    (h : processEntry now a = some x) :
    a.level = "error" ∧ x = enrich now a := by
  unfold processEntry at h
  split at h
  · exact ⟨by assumption, (Option.some.inj h).symm⟩
  · simp at h

theorem mem_accepted_level {now : String} {payload : List LogEntry} {x : LogEntry}
    (h : x ∈ payload.filterMap (processEntry now)) : x.level = "error" := by
  rcases List.mem_filterMap.mp h with ⟨a, _, ha⟩
  rcases processEntry_eq_some ha with ⟨hl, hx⟩
  rw [hx, enrich_level, hl]

theorem deliverSends_sublist (f : Nat → Bool) :
    ∀ (i : Nat) (l : List LogEntry), List.Sublist (deliverSends f i l) l := by
  intro i l
  induction l generalizing i with
  | nil => simp [deliverSends]
  | cons a t ih =>
      unfold deliverSends
      split
      · exact List.Sublist.cons₂ a (ih (i + 1))
      · exact List.Sublist.cons a (ih (i + 1))

theorem deliverSends_all_true {f : Nat → Bool} (hf : ∀ j, f j = true) :
    ∀ (i : Nat) (l : List LogEntry), deliverSends f i l = l := by
  intro i l
  induction l generalizing i with
  | nil => rfl
  | cons a t ih => simp [deliverSends, hf i, ih (i + 1)]

theorem mem_enqueued_level {now : String} {sendOk : Nat → Bool}
    {payload : List LogEntry} {x : LogEntry}
    (h : x ∈ (ingest_handler now sendOk payload).enqueued) :
    x.level = "error" :=
  mem_accepted_level
    ((deliverSends_sublist sendOk 0 (payload.filterMap (processEntry now))).subset h)

theorem writer_go_attempts (f : Nat → Bool) :
    ∀ (i : Nat) (q : List LogEntry),
      (writer_go f i q).attempts = q.map toStoredRow := by
  intro i q
  induction q generalizing i with
  | nil => rfl
  | cons a t ih => simp [writer_go, ih (i + 1)]

theorem writer_go_debugLogs (f : Nat → Bool) :
    ∀ (i : Nat) (q : List LogEntry),
      (writer_go f i q).debugLogs = q.map LogEntry.message := by
  intro i q
  induction q generalizing i with
  | nil => rfl
  | cons a t ih => simp [writer_go, ih (i + 1)]

theorem writer_go_stored_sublist (f : Nat → Bool) :
    ∀ (i : Nat) (q : List LogEntry),
      List.Sublist (writer_go f i q).stored (q.map toStoredRow) := by
  intro i q
  induction q generalizing i with
  | nil => simp [writer_go]
  | cons a t ih =>
      dsimp only [writer_go, List.map]
      split
      · exact List.Sublist.cons₂ (toStoredRow a) (ih (i + 1))
      · exact List.Sublist.cons (toStoredRow a) (ih (i + 1))

theorem writer_go_stored_all_true {f : Nat → Bool} (hf : ∀ j, f j = true) :
    ∀ (i : Nat) (q : List LogEntry),
      (writer_go f i q).stored = q.map toStoredRow := by
  intro i q
  induction q generalizing i with
  | nil => rfl
  | cons a t ih => simp [writer_go, hf i, ih (i + 1)]

theorem lookupField_append_of_none {l₁ : List (String × Json)} {k : String}
    (h : lookupField l₁ k = none) (l₂ : List (String × Json)) :
    lookupField (l₁ ++ l₂) k = lookupField l₂ k := by
  induction l₁ with
  | nil => rfl
  | cons kv t ih =>
      obtain ⟨k', v⟩ := kv
      simp only [List.cons_append, lookupField] at h ⊢
      by_cases hk : k' = k
      · rw [if_pos hk] at h; exact absurd h (by simp)
      · rw [if_neg hk] at h ⊢; exact ih h

theorem lookupField_append_of_some {l₁ : List (String × Json)} {k : String} {v : Json}
    (h : lookupField l₁ k = some v) (l₂ : List (String × Json)) :
    lookupField (l₁ ++ l₂) k = some v := by
  induction l₁ with
  | nil => simp [lookupField] at h
  | cons kv t ih =>
      obtain ⟨k', w⟩ := kv
      simp only [List.cons_append, lookupField] at h ⊢
      by_cases hk : k' = k
      · rw [if_pos hk] at h ⊢; exact h
      · rw [if_neg hk] at h ⊢; exact ih h

theorem enrich_of_present {now : String} {log : LogEntry} {v : Json}
    (h : log.extra.get "timestamp" = some v) : enrich now log = log := by
  obtain ⟨l, m, extra⟩ := log
  cases extra <;> simp only [Json.get] at h
  case str => exact absurd h (by simp)
  case null => exact absurd h (by simp)
  case boolean => exact absurd h (by simp)
  case num => exact absurd h (by simp)
  case arr => exact absurd h (by simp)
  case obj fields => simp [enrich, h]

theorem enrich_of_not_obj {now : String} {log : LogEntry}
    (h : log.extra.isObj = false) : enrich now log = log := by
  obtain ⟨l, m, extra⟩ := log
  cases extra <;> first | rfl | simp [Json.isObj] at h

theorem enrich_obj_absent {now l m : String} {fields : List (String × Json)}
    (h : lookupField fields "timestamp" = none) :
    enrich now ⟨l, m, Json.obj fields⟩ =
      ⟨l, m, Json.obj (fields ++ [("timestamp", Json.str now)])⟩ := by
  simp [enrich, h]

theorem recordTimestamp_of_str {log : LogEntry} {s : String}
    (h : log.extra.get "timestamp" = some (Json.str s)) :
    recordTimestamp log = s := by
  simp [recordTimestamp, h, Json.asStr]

theorem recordTimestamp_of_non_str {log : LogEntry} {v : Json}
    (h : log.extra.get "timestamp" = some v) (hs : v.asStr = none) :
    recordTimestamp log = "" := by
  simp [recordTimestamp, h, hs]

theorem recordTimestamp_of_none {log : LogEntry}
    (h : log.extra.get "timestamp" = none) :
    recordTimestamp log = "" := by
  simp [recordTimestamp, h]

theorem enrich_extra_obj_absent (now : String) {e : LogEntry}
    {fields : List (String × Json)}
    (hobj : e.extra = Json.obj fields)
    (habsent : lookupField fields "timestamp" = none) :
    (enrich now e).extra = Json.obj (fields ++ [("timestamp", Json.str now)]) := by
  obtain ⟨l, m, extra⟩ := e
  dsimp only at hobj
  subst hobj
  rw [enrich_obj_absent habsent]

theorem lookupField_filter (p : String × Json → Bool) {k : String}
    (hp : ∀ w, p (k, w) = true) :
    ∀ {fields : List (String × Json)} {v : Json},
      lookupField fields k = some v →
      lookupField (fields.filter p) k = some v := by
  intro fields
  induction fields with
  | nil => intro v h; exact absurd h (by simp [lookupField])
  | cons kv t ih =>
      intro v h
      obtain ⟨k', w⟩ := kv
      by_cases hk : k' = k
      · subst hk
        rw [lookupField, if_pos rfl] at h
        rw [List.filter_cons, if_pos (hp w), lookupField, if_pos rfl]
        exact h
      · rw [lookupField, if_neg hk] at h
        rw [List.filter_cons]
        by_cases hpw : p (k', w)
        · rw [if_pos hpw, lookupField, if_neg hk]
          exact ih h
        · rw [if_neg hpw]
          exact ih h

theorem parseLogEntry_extra {fields : List (String × Json)} {e : LogEntry}
    (h : parseLogEntry fields = some e) :
    e.extra = Json.obj (fields.filter fun kv =>
      !(kv.1 == "level") && !(kv.1 == "message")) := by
  unfold parseLogEntry at h
  split at h
  · rw [← Option.some.inj h]
  · simp at h

/-! Claim theorems. -/

/-- C1: every entry of an input batch whose `level` is not exactly the
string `"error"` (case-sensitive) is discarded by `ingest_handler`: it
is never enqueued, every row reaching the durable store has level
`"error"` (so the discarded entry never reaches it), and the handler
still answers 202, producing no error. -/
theorem c1_non_error_entries_discarded
    (now : String) (sendOk insertOk : Nat → Bool) (payload : List LogEntry)
    (e : LogEntry) (_he : e ∈ payload) (hl : e.level ≠ "error") :
    e ∉ (ingest_handler now sendOk payload).enqueued ∧
    (∀ row ∈ (writer_task insertOk
        (ingest_handler now sendOk payload).enqueued).stored,
      row.level = "error") ∧
    (ingest_handler now sendOk payload).status = 202 := by
  refine ⟨fun hmem => hl (mem_enqueued_level hmem), ?_, rfl⟩
  intro row hrow
  have hsub :=
    writer_go_stored_sublist insertOk 0 (ingest_handler now sendOk payload).enqueued
  rcases List.mem_map.mp (hsub.subset hrow) with ⟨x, hx, hrow'⟩
  rw [← hrow']
  exact mem_enqueued_level hx

/-- C1 witness: an info-level heartbeat entry in a singleton batch is
never enqueued nor stored, and the response is still 202. -/
theorem c1_witness :
    ((⟨"info", "heartbeat", Json.obj []⟩ : LogEntry) ∈
        [(⟨"info", "heartbeat", Json.obj []⟩ : LogEntry)]) ∧
    (⟨"info", "heartbeat", Json.obj []⟩ : LogEntry).level ≠ "error" ∧
    ((⟨"info", "heartbeat", Json.obj []⟩ : LogEntry) ∉
        (ingest_handler "t0" (fun _ => true)
          [⟨"info", "heartbeat", Json.obj []⟩]).enqueued ∧
      (∀ row ∈ (writer_task (fun _ => true)
          (ingest_handler "t0" (fun _ => true)
            [⟨"info", "heartbeat", Json.obj []⟩]).enqueued).stored,
        row.level = "error") ∧
      (ingest_handler "t0" (fun _ => true)
          [⟨"info", "heartbeat", Json.obj []⟩]).status = 202) :=
  ⟨List.mem_singleton.mpr rfl, by simp,
    c1_non_error_entries_discarded "t0" (fun _ => true) (fun _ => true) _ _
      (List.mem_singleton.mpr rfl) (by simp)⟩

/-- C2: for an accepted entry (`level = "error"`) whose `extra` fields
form an object lacking a `"timestamp"` key, `ingest_handler` injects the
ingestion-time clock reading `now` (in the source,
`chrono::Utc::now().to_rfc3339()`, which by chrono's contract always
renders a valid RFC3339 string for the current UTC time) under that key
before enqueueing, and the stored timestamp column equals `now`. -/
theorem c2_timestamp_injected
    (now : String) (e : LogEntry) (fields : List (String × Json))
    (hobj : e.extra = Json.obj fields)
    (habsent : lookupField fields "timestamp" = none)
    (hlevel : e.level = "error") :
    processEntry now e = some (enrich now e) ∧
    (enrich now e).extra.get "timestamp" = some (Json.str now) ∧
    (toStoredRow (enrich now e)).timestamp = now := by
  have henrich : (enrich now e).extra =
      Json.obj (fields ++ [("timestamp", Json.str now)]) := by
    obtain ⟨l, m, extra⟩ := e
    dsimp only at hobj
    subst hobj
    rw [enrich_obj_absent habsent]
  have hget : (enrich now e).extra.get "timestamp" = some (Json.str now) := by
    rw [henrich]
    simp only [Json.get]
    rw [lookupField_append_of_none habsent]
    simp [lookupField]
  exact ⟨by simp [processEntry, hlevel], hget, recordTimestamp_of_str hget⟩

/-- C2 witness: an error entry with no extra fields gets the clock
reading injected and stored as its timestamp. -/
theorem c2_witness :
    (⟨"error", "disk full", Json.obj []⟩ : LogEntry).extra = Json.obj [] ∧
    lookupField [] "timestamp" = none ∧
    (⟨"error", "disk full", Json.obj []⟩ : LogEntry).level = "error" ∧
    (processEntry "2024-05-01T12:00:00+00:00" ⟨"error", "disk full", Json.obj []⟩ =
        some (enrich "2024-05-01T12:00:00+00:00" ⟨"error", "disk full", Json.obj []⟩) ∧
      (enrich "2024-05-01T12:00:00+00:00"
          (⟨"error", "disk full", Json.obj []⟩ : LogEntry)).extra.get "timestamp" =
        some (Json.str "2024-05-01T12:00:00+00:00") ∧
      (toStoredRow (enrich "2024-05-01T12:00:00+00:00"
          ⟨"error", "disk full", Json.obj []⟩)).timestamp =
        "2024-05-01T12:00:00+00:00") :=
  ⟨rfl, rfl, rfl, c2_timestamp_injected _ _ [] rfl rfl rfl⟩

/-- C3 counterexample: the claim promises that whenever the entry
included a `timestamp` among its extra fields the stored column equals
the provided value verbatim.  An accepted entry carrying the non-string
value `42` under `"timestamp"` refutes this: the key counts as present
(so nothing is injected) but `as_str` fails, line 77 falls back to `""`,
and the stored text does not equal the provided value. -/
theorem c3_counterexample :
    ¬ ∀ (now : String) (e : LogEntry) (v : Json),
        e.level = "error" →
        e.extra.get "timestamp" = some v →
        Json.str ((toStoredRow (enrich now e)).timestamp) = v := by
  intro h
  have h42 := h "t0" ⟨"error", "x", Json.obj [("timestamp", Json.num 42)]⟩
      (Json.num 42) rfl (by simp [Json.get, lookupField])
  exact Json.noConfusion h42

/-- C3 (amended): for every accepted entry, the persisted timestamp
column is read back from `extra.timestamp` after enrichment: a string
timestamp provided by the entry is stored verbatim (no overwrite); when
the key holds a non-string value, or `extra` is not a mapping (so the
key is unreadable), the stored value is the empty string — a defined
degenerate case, not an error. -/
theorem c3_timestamp_read_back
    (now : String) (e : LogEntry) (hlevel : e.level = "error") :
    processEntry now e = some (enrich now e) ∧
    (∀ s, e.extra.get "timestamp" = some (Json.str s) →
        (toStoredRow (enrich now e)).timestamp = s) ∧
    (∀ v, e.extra.get "timestamp" = some v → v.asStr = none →
        (toStoredRow (enrich now e)).timestamp = "") ∧
    (e.extra.isObj = false → (toStoredRow (enrich now e)).timestamp = "") := by
  refine ⟨by simp [processEntry, hlevel], ?_, ?_, ?_⟩
  · intro s hs
    rw [enrich_of_present hs]
    exact recordTimestamp_of_str hs
  · intro v hv hstr
    rw [enrich_of_present hv]
    exact recordTimestamp_of_non_str hv hstr
  · intro hobj
    rw [enrich_of_not_obj hobj]
    exact recordTimestamp_of_none (Json.get_of_not_obj hobj "timestamp")

/-- C3 witness: the spec's end-to-end scenario entry, carrying the
string timestamp `"2024-01-01T00:00:00Z"`, at clock reading `"t0"`. -/
theorem c3_witness :
    (⟨"error", "x", Json.obj [("timestamp", Json.str "2024-01-01T00:00:00Z")]⟩ :
        LogEntry).level = "error" ∧
    (processEntry "t0"
        ⟨"error", "x", Json.obj [("timestamp", Json.str "2024-01-01T00:00:00Z")]⟩ =
      some (enrich "t0"
        ⟨"error", "x", Json.obj [("timestamp", Json.str "2024-01-01T00:00:00Z")]⟩) ∧
    (∀ s, (⟨"error", "x", Json.obj [("timestamp", Json.str "2024-01-01T00:00:00Z")]⟩ :
        LogEntry).extra.get "timestamp" = some (Json.str s) →
      (toStoredRow (enrich "t0"
        ⟨"error", "x", Json.obj [("timestamp", Json.str "2024-01-01T00:00:00Z")]⟩)).timestamp = s) ∧
    (∀ v, (⟨"error", "x", Json.obj [("timestamp", Json.str "2024-01-01T00:00:00Z")]⟩ :
        LogEntry).extra.get "timestamp" = some v → v.asStr = none →
      (toStoredRow (enrich "t0"
        ⟨"error", "x", Json.obj [("timestamp", Json.str "2024-01-01T00:00:00Z")]⟩)).timestamp = "") ∧
    ((⟨"error", "x", Json.obj [("timestamp", Json.str "2024-01-01T00:00:00Z")]⟩ :
        LogEntry).extra.isObj = false →
      (toStoredRow (enrich "t0"
        ⟨"error", "x", Json.obj [("timestamp", Json.str "2024-01-01T00:00:00Z")]⟩)).timestamp = "")) :=
  ⟨rfl, c3_timestamp_read_back "t0" _ rfl⟩

/-- C10: for an accepted entry whose extra object binds `"timestamp"` to
a non-string JSON value, no timestamp is injected (the key counts as
present, so the entry passes through the handler unchanged), the stored
timestamp column is the empty string, and the details column still holds
the original non-string value under `"timestamp"`. -/
theorem c10_non_string_timestamp
    (now : String) (e : LogEntry) (v : Json)
    (hv : e.extra.get "timestamp" = some v)
    (hstr : v.asStr = none)
    (hlevel : e.level = "error") :
    processEntry now e = some e ∧
    (toStoredRow e).timestamp = "" ∧
    (toStoredRow e).details.get "timestamp" = some v := by
  have henrich : enrich now e = e := enrich_of_present hv
  exact ⟨by simp [processEntry, hlevel, henrich],
    recordTimestamp_of_non_str hv hstr, hv⟩

/-- C10 witness: an error entry whose `"timestamp"` holds the number 7
is forwarded unchanged, stored with an empty timestamp column, and keeps
the number 7 in its details. -/
theorem c10_witness :
    (⟨"error", "boom", Json.obj [("timestamp", Json.num 7)]⟩ :
        LogEntry).extra.get "timestamp" = some (Json.num 7) ∧
    (Json.num 7).asStr = none ∧
    (⟨"error", "boom", Json.obj [("timestamp", Json.num 7)]⟩ :
        LogEntry).level = "error" ∧
    (processEntry "t0" ⟨"error", "boom", Json.obj [("timestamp", Json.num 7)]⟩ =
        some (⟨"error", "boom", Json.obj [("timestamp", Json.num 7)]⟩ : LogEntry) ∧
      (toStoredRow ⟨"error", "boom", Json.obj [("timestamp", Json.num 7)]⟩).timestamp = "" ∧
      (toStoredRow ⟨"error", "boom",
          Json.obj [("timestamp", Json.num 7)]⟩).details.get "timestamp" =
        some (Json.num 7)) :=
  ⟨by simp [Json.get, lookupField], rfl, rfl,
    c10_non_string_timestamp "t0" _ (Json.num 7)
      (by simp [Json.get, lookupField]) rfl rfl⟩

/-- C4: for every accepted entry deserialized from a payload object, the
details column (the serialized `extra` mapping) retains every field of
the original payload other than `level` and `message` — including
unrecognized ones, losslessly — and additionally contains the resolved
`"timestamp"` key: no field of the original payload is dropped. -/
theorem c4_details_round_trip
    (now : String) (fields : List (String × Json)) (e : LogEntry)
    (hparse : parseLogEntry fields = some e)
    (_hlevel : e.level = "error")
    (k : String) (v : Json)
    (hk1 : k ≠ "level") (hk2 : k ≠ "message")
    (hkv : lookupField fields k = some v) :
    (toStoredRow (enrich now e)).details.get k = some v ∧
    ((toStoredRow (enrich now e)).details.get "timestamp").isSome = true := by
  have he := parseLogEntry_extra hparse
  have hp : ∀ w, (fun kv : String × Json =>
      !(kv.1 == "level") && !(kv.1 == "message")) (k, w) = true := by
    intro w
    simp [hk1, hk2]
  have hlook := lookupField_filter
    (fun kv : String × Json => !(kv.1 == "level") && !(kv.1 == "message")) hp hkv
  cases hts : lookupField (fields.filter fun kv =>
      !(kv.1 == "level") && !(kv.1 == "message")) "timestamp" with
  | some w =>
      have hpres : e.extra.get "timestamp" = some w := by
        rw [he]; exact hts
      rw [enrich_of_present hpres]
      constructor
      · show e.extra.get k = some v
        rw [he]; exact hlook
      · show (e.extra.get "timestamp").isSome = true
        rw [hpres]; rfl
  | none =>
      have henr := enrich_extra_obj_absent now he hts
      constructor
      · show (enrich now e).extra.get k = some v
        rw [henr]
        simp only [Json.get]
        exact lookupField_append_of_some hlook _
      · show ((enrich now e).extra.get "timestamp").isSome = true
        rw [henr]
        simp only [Json.get]
        rw [lookupField_append_of_none hts]
        simp [lookupField]

/-- C4 witness: a payload object with an unrecognized `request_id` field
keeps that field in the details column and gains a timestamp. -/
theorem c4_witness :
    parseLogEntry [("level", Json.str "error"), ("message", Json.str "x"),
        ("request_id", Json.str "abc")] =
      some (⟨"error", "x", Json.obj [("request_id", Json.str "abc")]⟩ : LogEntry) ∧
    (⟨"error", "x", Json.obj [("request_id", Json.str "abc")]⟩ : LogEntry).level =
      "error" ∧
    "request_id" ≠ "level" ∧
    "request_id" ≠ "message" ∧
    lookupField [("level", Json.str "error"), ("message", Json.str "x"),
        ("request_id", Json.str "abc")] "request_id" = some (Json.str "abc") ∧
    ((toStoredRow (enrich "t0"
        ⟨"error", "x", Json.obj [("request_id", Json.str "abc")]⟩)).details.get
      "request_id" = some (Json.str "abc") ∧
    ((toStoredRow (enrich "t0"
        ⟨"error", "x", Json.obj [("request_id", Json.str "abc")]⟩)).details.get
      "timestamp").isSome = true) :=
  ⟨by simp [parseLogEntry, lookupField], rfl, by simp, by simp,
    by simp [lookupField],
    c4_details_round_trip "t0"
      [("level", Json.str "error"), ("message", Json.str "x"),
        ("request_id", Json.str "abc")]
      ⟨"error", "x", Json.obj [("request_id", Json.str "abc")]⟩
      (by simp [parseLogEntry, lookupField]) rfl
      "request_id" (Json.str "abc") (by simp) (by simp)
      (by simp [lookupField])⟩

/-- C5 counterexample: the claim says the persistence worker logs the
insert failure.  In the source the only tracing statement of the worker
loop is the `debug!` on line 74, emitted before the insert, and the
insert's result is discarded by `let _ =` (line 83), so the worker's log
output is identical on failing and succeeding runs — were a failure
logged, a run whose only insert fails would produce log output differing
from the all-success run on the same queue. -/
theorem c5_counterexample :
    ¬ ∀ (q : List LogEntry) (insertOk : Nat → Bool),
        (∃ i, i < q.length ∧ insertOk i = false) →
        (writer_task insertOk q).debugLogs ≠
          (writer_task (fun _ => true) q).debugLogs := by
  intro h
  exact h [⟨"error", "boom", Json.obj []⟩] (fun _ => false)
    ⟨0, by simp, rfl⟩ rfl

/-- C5 (amended): on insert failure the worker silently discards the
error and continues: every queued record is attempted exactly once, in
order (no retry), the loop is total (a failure is not fatal), the failed
record is simply missing from the stored rows (the remainder being an
order-preserving subsequence of the attempts), and the debug output does
not depend on the insert outcomes. -/
theorem c5_insert_failure_silently_skipped
    (insertOk : Nat → Bool) (q : List LogEntry) :
    (writer_task insertOk q).attempts = q.map toStoredRow ∧
    (writer_task insertOk q).debugLogs = q.map LogEntry.message ∧
    List.Sublist (writer_task insertOk q).stored (q.map toStoredRow) :=
  ⟨writer_go_attempts insertOk 0 q, writer_go_debugLogs insertOk 0 q,
    writer_go_stored_sublist insertOk 0 q⟩

/-- C6: a well-formed body (a JSON array of log-entry objects) is
answered with HTTP 202 and an empty body (a bare status code renders
with no payload), whatever the clock and whatever the outcome of each
channel send — enqueue errors are swallowed and the status is computed
without consulting the writer at all. -/
theorem c6_well_formed_accepted
    (body : Json) (payload : List LogEntry)
    (hparse : parseBody body = some payload)
    (now : String) (sendOk : Nat → Bool) :
    (ingestEndpoint now sendOk body).status = 202 ∧
    statusResponseBody (ingestEndpoint now sendOk body).status = "" := by
  unfold ingestEndpoint
  rw [hparse]
  exact ⟨rfl, rfl⟩

/-- C6 witness: a singleton batch whose only entry is filtered out is
still answered 202 with an empty body, under an always-failing send. -/
theorem c6_witness :
    parseBody (Json.arr [Json.obj [("level", Json.str "info"),
        ("message", Json.str "heartbeat")]]) =
      some [(⟨"info", "heartbeat", Json.obj []⟩ : LogEntry)] ∧
    ((ingestEndpoint "t0" (fun _ => false)
        (Json.arr [Json.obj [("level", Json.str "info"),
          ("message", Json.str "heartbeat")]])).status = 202 ∧
      statusResponseBody (ingestEndpoint "t0" (fun _ => false)
        (Json.arr [Json.obj [("level", Json.str "info"),
          ("message", Json.str "heartbeat")]])).status = "") :=
  ⟨by simp [parseBody, parseEntries, parseLogEntry, lookupField],
    c6_well_formed_accepted
      (Json.arr [Json.obj [("level", Json.str "info"),
        ("message", Json.str "heartbeat")]])
      [⟨"info", "heartbeat", Json.obj []⟩]
      (by simp [parseBody, parseEntries, parseLogEntry, lookupField]) "t0"
      (fun _ => false)⟩

/-- C7: a body that does not deserialize as a JSON array of log entries
is rejected with a client-error (4xx) status before any per-entry
processing: nothing is enqueued, and whatever the insert outcomes,
nothing reaches the durable store. -/
theorem c7_malformed_rejected
    (body : Json) (hparse : parseBody body = none)
    (now : String) (sendOk : Nat → Bool) :
    400 ≤ (ingestEndpoint now sendOk body).status ∧
    (ingestEndpoint now sendOk body).status < 500 ∧
    (ingestEndpoint now sendOk body).enqueued = [] ∧
    ∀ insertOk, (writer_task insertOk
        (ingestEndpoint now sendOk body).enqueued).stored = [] := by
  have hst : ingestEndpoint now sendOk body =
      { enqueued := [], status := rejectionStatus } := by
    unfold ingestEndpoint
    rw [hparse]
  rw [hst]
  exact ⟨by decide, by decide, rfl, fun insertOk => rfl⟩

/-- C7 witness: a body that is a bare JSON string is rejected with 422
and causes no side effects. -/
theorem c7_witness :
    parseBody (Json.str "not an array") = none ∧
    (400 ≤ (ingestEndpoint "t0" (fun _ => true) (Json.str "not an array")).status ∧
      (ingestEndpoint "t0" (fun _ => true) (Json.str "not an array")).status < 500 ∧
      (ingestEndpoint "t0" (fun _ => true) (Json.str "not an array")).enqueued = [] ∧
      ∀ insertOk, (writer_task insertOk
          (ingestEndpoint "t0" (fun _ => true)
            (Json.str "not an array")).enqueued).stored = []) :=
  ⟨rfl, c7_malformed_rejected (Json.str "not an array") rfl "t0" (fun _ => true)⟩

/-- C8: the channel never reorders: the rows the writer stores are an
order-preserving subsequence of the request's accepted entries in their
original order, and when every send and every insert succeeds the stored
rows are exactly the accepted entries' rows in that order — a batch
enqueued as A, B, C is persisted as A, B, C. -/
theorem c8_fifo_order_preserved
    (now : String) (sendOk insertOk : Nat → Bool) (payload : List LogEntry) :
    List.Sublist
      (writer_task insertOk (ingest_handler now sendOk payload).enqueued).stored
      ((payload.filterMap (processEntry now)).map toStoredRow) ∧
    ((∀ i, sendOk i = true) → (∀ i, insertOk i = true) →
      (writer_task insertOk (ingest_handler now sendOk payload).enqueued).stored =
        (payload.filterMap (processEntry now)).map toStoredRow) := by
  constructor
  · exact List.Sublist.trans
      (writer_go_stored_sublist insertOk 0 _)
      (List.Sublist.map toStoredRow (deliverSends_sublist sendOk 0 _))
  · intro hs hi
    rw [show (ingest_handler now sendOk payload).enqueued =
        payload.filterMap (processEntry now) from deliverSends_all_true hs 0 _]
    exact writer_go_stored_all_true hi 0 _

/-- C8 witness: three accepted entries A, B, C, with every send and
every insert succeeding, are persisted as A, B, C. -/
theorem c8_witness :
    (∀ i : Nat, (fun _ : Nat => true) i = true) ∧
    (List.Sublist
        (writer_task (fun _ => true) (ingest_handler "t0" (fun _ => true)
          [sampleA, sampleB, sampleC]).enqueued).stored
        (([sampleA, sampleB, sampleC].filterMap
          (processEntry "t0")).map toStoredRow) ∧
      ((∀ i : Nat, (fun _ : Nat => true) i = true) →
        (∀ i : Nat, (fun _ : Nat => true) i = true) →
        (writer_task (fun _ => true) (ingest_handler "t0" (fun _ => true)
            [sampleA, sampleB, sampleC]).enqueued).stored =
          (([sampleA, sampleB, sampleC].filterMap
            (processEntry "t0")).map toStoredRow))) :=
  ⟨fun _ => rfl,
    c8_fifo_order_preserved "t0" (fun _ => true) (fun _ => true)
      [sampleA, sampleB, sampleC]⟩

/-- C9: with the channel capacity 10000 from line 42, a send against a
saturated open channel does not complete — the caller suspends, still
holding the record, so nothing is dropped and no error is produced —
while a send against any open channel with a free slot completes by
appending the record to the buffer. -/
theorem c9_backpressure
    (s : ChannelState) (r : LogEntry)
    (hfull : s.buffer.length = channelCapacity)
    (hopen : s.closed = false) :
    trySend channelCapacity s r = SendOutcome.pending ∧
    ∀ s' : ChannelState, s'.buffer.length < channelCapacity → s'.closed = false →
      trySend channelCapacity s' r =
        SendOutcome.delivered { buffer := s'.buffer ++ [r], closed := false } := by
  constructor
  · simp [trySend, hopen, hfull]
  · intro s' hlt hop
    simp [trySend, hop, hlt]

/-- C9 witness: a channel holding exactly 10000 buffered records makes
the next send suspend rather than drop or fail. -/
theorem c9_witness :
    (ChannelState.mk (List.replicate channelCapacity sampleA) false).buffer.length =
      channelCapacity ∧
    (ChannelState.mk (List.replicate channelCapacity sampleA) false).closed = false ∧
    (trySend channelCapacity
        ⟨List.replicate channelCapacity sampleA, false⟩ sampleB =
      SendOutcome.pending ∧
    ∀ s' : ChannelState, s'.buffer.length < channelCapacity → s'.closed = false →
      trySend channelCapacity s' sampleB =
        SendOutcome.delivered { buffer := s'.buffer ++ [sampleB], closed := false }) :=
  ⟨by simp, rfl,
    c9_backpressure ⟨List.replicate channelCapacity sampleA, false⟩ sampleB
      (by simp) rfl⟩

end LogIngestor
